import Mathlib

/-!
Verification of the Pomodoro timer/session reconciliation core.

Shallow embedding of `src/services/sessionManager.ts` (SessionManager),
`src/services/timerManager.ts` (TimerManager, shipped here as
`src/unnamed/part_013`) and the completion-polling behaviour of
`src/hooks/useAdvancedTimer.ts`.

Wall-clock instants and durations are modelled as `Int` (milliseconds,
matching `Date.now()`), planned durations as `Int` seconds as in the source.
JavaScript `Math.floor(x / 1000)` on integer inputs is `Int.fdiv x 1000`.
Remote (Firestore) calls are modelled by explicit success flags: a call
either fully applies its write or fails with no effect, matching the
per-operation atomicity of the Firestore API the code uses.
-/

namespace Pomodoro

/-- Session kind, source values 'work' | 'break' | 'longBreak'. -/
inductive SType where
  | work
  | shortBreak
  | longBreak
deriving DecidableEq, Repr

/-- `ActiveSession` from sessionManager.ts: the local active-session snapshot.
`startTime` and `pausedTime` are epoch milliseconds, `plannedDuration` seconds,
`totalPausedDuration` milliseconds. -/
structure ActiveSession where
  sessionId : String
  userId : String
  ty : SType
  startTime : Int
  plannedDuration : Int
  pausedTime : Option Int := none
  totalPausedDuration : Int := 0
deriving DecidableEq, Repr

/-- `SessionData` from sessionManager.ts: the remote session-ledger record,
restricted to the fields the verified operations read or write. -/
structure SessionData where
  sessionId : Option String := none
  userId : String := ""
  ty : SType := SType.work
  plannedDuration : Int := 0
  actualDuration : Option Int := none
  startTime : Int := 0
  endTime : Option Int := none
  completed : Bool := false
  interrupted : Bool := false
  cancelled : Bool := false
  date : Int := 0
deriving DecidableEq, Repr

/-- The mutable fields of the `SessionManager` class instance. -/
structure SMState where
  activeSession : Option ActiveSession := none
  offlineQueue : List SessionData := []
deriving DecidableEq, Repr

/-- The `users/{uid}` document fields read and written by
`completeSession` / `updateUserStreak`.  Missing numeric fields read as 0
(`|| 0` in the source); a missing `lastSessionDate` is `none`. -/
structure UserDoc where
  totalSessions : Int := 0
  totalFocusMinutes : Int := 0
  currentStreak : Int := 0
  longestStreak : Int := 0
  lastSessionDate : Option Int := none
deriving DecidableEq, Repr

/-- The session record built at the top of `SessionManager.startSession`
(no `sessionId` field is set on it). -/
def startSessionData (userId : String) (ty : SType) (duration : Int)
    (now : Int) (today : Int) : SessionData :=
  { sessionId := none, userId := userId, ty := ty, plannedDuration := duration,
    actualDuration := none, startTime := now, endTime := none,
    completed := false, interrupted := false, cancelled := false, date := today }

/-- `SessionManager.startSession`.  `remoteOk` is whether the `addDoc`
create against the remote ledger succeeds; `newId` is the document id it
would return.  On success the local snapshot is set and the id returned;
on failure the built record is pushed onto the offline queue and the error
is rethrown (`throw error`), leaving `activeSession` untouched. -/
def startSession (st : SMState) (remoteOk : Bool) (userId : String)
    (ty : SType) (duration : Int) (now : Int) (today : Int) (newId : String) :
    SMState × Except String String :=
  let sessionData := startSessionData userId ty duration now today
  if remoteOk then
    ({ st with activeSession := some (
        { sessionId := newId, userId := userId, ty := ty, startTime := now,
          plannedDuration := duration, pausedTime := none,
          totalPausedDuration := 0 } : ActiveSession) },
     Except.ok newId)
  else
    ({ st with offlineQueue := st.offlineQueue ++ [sessionData] },
     Except.error "remote create failed")

/-- `SessionManager.completeSession`.  `remoteOk` is whether the Firestore
transaction (session finalize + conditional counter increments) commits;
`streakOk` is whether the separate `updateUserStreak` transaction commits
(its failure is caught inside `updateUserStreak` and swallowed).  On
transaction failure the error is rethrown and nothing changes.  The streak
branch uses `updateUserStreak`, defined below. -/
def updateUserStreak (u : UserDoc) (today : Int) : UserDoc :=
  if u.lastSessionDate = some today then u
  else
    let newCurrentStreak :=
      if u.lastSessionDate = some (today - 1) then u.currentStreak + 1 else 1
    let newLongestStreak :=
      if newCurrentStreak > u.longestStreak then newCurrentStreak
      else u.longestStreak
    { u with currentStreak := newCurrentStreak,
             longestStreak := newLongestStreak,
             lastSessionDate := some today }

def completeSession (st : SMState) (u : UserDoc) (remoteOk streakOk : Bool)
    (actualDuration : Int) (wasCompleted : Bool) (today : Int) :
    SMState × UserDoc × Except String Unit :=
  if remoteOk then
    let u1 :=
      match st.activeSession, wasCompleted with
      | some _, true =>
          { u with totalSessions := u.totalSessions + 1,
                   totalFocusMinutes :=
                     u.totalFocusMinutes + Int.fdiv actualDuration 60 }
      | _, _ => u
    let u2 :=
      match st.activeSession, wasCompleted with
      | some a, true =>
          if a.ty = SType.work then
            if streakOk then updateUserStreak u1 today else u1
          else u1
      | _, _ => u1
    ({ st with activeSession := none }, u2, Except.ok ())
  else
    (st, u, Except.error "remote finalize failed")

/-- `SessionManager.cancelSession`: on remote success the snapshot is
cleared; on failure the error is rethrown with nothing queued and the
snapshot left in place. -/
def cancelSession (st : SMState) (remoteOk : Bool) :
    SMState × Except String Unit :=
  if remoteOk then ({ st with activeSession := none }, Except.ok ())
  else (st, Except.error "remote cancel failed")

/-- `SessionManager.pauseSession`: records the pause instant if a session
is active and not already paused; otherwise a no-op. -/
def pauseSession (st : SMState) (now : Int) : SMState :=
  match st.activeSession with
  | some a =>
      match a.pausedTime with
      | none => { st with activeSession := some { a with pausedTime := some now } }
      | some _ => st
  | none => st

/-- `SessionManager.resumeSession`: folds the just-finished pause span into
`totalPausedDuration` and clears `pausedTime`; no-op unless paused. -/
def resumeSession (st : SMState) (now : Int) : SMState :=
  match st.activeSession with
  | some a =>
      match a.pausedTime with
      | some p =>
          { st with activeSession := some (
              { a with totalPausedDuration := a.totalPausedDuration + (now - p),
                       pausedTime := none } : ActiveSession) }
      | none => st
  | none => st

/-- The current-pause span term of `SessionManager.getElapsedTime`. -/
def pauseSpan (a : ActiveSession) (now : Int) : Int :=
  match a.pausedTime with
  | some p => now - p
  | none => 0

/-- `SessionManager.getElapsedTime`: wall-clock span minus paused time,
clamped below at 0; 0 when no session is active.  Value in milliseconds. -/
def getElapsedTime (s : Option ActiveSession) (now : Int) : Int :=
  match s with
  | none => 0
  | some a =>
      max 0 ((now - a.startTime) - (a.totalPausedDuration + pauseSpan a now))

/-- `SessionManager.recoverActiveSession`: restores whatever snapshot is
persisted, unconditionally, and returns it; with nothing stored it returns
`none` and leaves the in-memory state alone.  There is no elapsed-time
check against `plannedDuration`. -/
def recoverActiveSession (stored : Option ActiveSession) (st : SMState) :
    SMState × Option ActiveSession :=
  match stored with
  | some a => ({ st with activeSession := some a }, some a)
  | none => (st, none)

/-- `TimerState` from timerManager.ts.  `startTime` / `pausedTime` are epoch
milliseconds, `elapsedTime` whole seconds, `plannedDuration` seconds. -/
structure TimerState where
  isActive : Bool := false
  isPaused : Bool := false
  startTime : Option Int := none
  pausedTime : Option Int := none
  elapsedTime : Int := 0
  sessionId : Option String := none
  plannedDuration : Int := 0
deriving DecidableEq, Repr

/-- The state `TimerManager`'s constructor builds. -/
def initialTimerState : TimerState := {}

/-- One locally scheduled notification: its platform id and absolute fire
time, as produced by `Notifications.scheduleNotificationAsync`. -/
structure ScheduledNote where
  nid : Nat
  fireTime : Int
deriving DecidableEq, Repr

/-- A `TimerManager` instance: its `timerState` plus the notifications it
has scheduled and not yet cancelled (`notificationIds`, here kept with
their fire times), and a fresh-id counter for the platform. -/
structure TMState where
  timerState : TimerState := {}
  pending : List ScheduledNote := []
  nextNid : Nat := 0
deriving DecidableEq, Repr

/-- `TimerManager.scheduleCompletionNotification`: no-op unless active,
unpaused, with a start time; otherwise schedules one notification at
`startTime + plannedDuration * 1000` and records its id. -/
def scheduleCompletionNote (st : TMState) : TMState :=
  if st.timerState.isActive && !st.timerState.isPaused then
    match st.timerState.startTime with
    | some s =>
        { st with
          pending := st.pending ++
            [{ nid := st.nextNid,
               fireTime := s + st.timerState.plannedDuration * 1000 }],
          nextNid := st.nextNid + 1 }
    | none => st
  else st

/-- `TimerManager.cancelPendingNotifications`: cancels every tracked
notification and empties the tracking list. -/
def cancelPendingNotes (st : TMState) : TMState :=
  { st with pending := [] }

/-- `TimerManager.startTimer`: installs a fresh running state and schedules
the completion notification. -/
def startTimer (st : TMState) (now : Int) (sid : String) (dur : Int) :
    TMState :=
  scheduleCompletionNote
    { st with timerState :=
        { isActive := true, isPaused := false, startTime := some now,
          pausedTime := none, elapsedTime := 0, sessionId := some sid,
          plannedDuration := dur } }

/-- `TimerManager.pauseTimer`: no-op unless running; otherwise freezes
`elapsedTime` (whole seconds since the adjusted start), records the pause
instant and cancels all pending notifications. -/
def pauseTimer (st : TMState) (now : Int) : TMState :=
  if !st.timerState.isActive || st.timerState.isPaused then st
  else
    let elapsed :=
      match st.timerState.startTime with
      | some s => Int.fdiv (now - s) 1000
      | none => st.timerState.elapsedTime
    cancelPendingNotes
      { st with timerState :=
          { st.timerState with isPaused := true, pausedTime := some now,
                               elapsedTime := elapsed } }

/-- `TimerManager.resumeTimer`: no-op unless paused; otherwise shifts
`startTime` forward by the pause span, clears the pause marker and
schedules a fresh completion notification. -/
def resumeTimer (st : TMState) (now : Int) : TMState :=
  if !st.timerState.isActive || !st.timerState.isPaused then st
  else
    let newStart :=
      match st.timerState.startTime, st.timerState.pausedTime with
      | some s, some p => some (s + (now - p))
      | s, _ => s
    scheduleCompletionNote
      { st with timerState :=
          { st.timerState with isPaused := false, pausedTime := none,
                               startTime := newStart } }

/-- `TimerManager.stopTimer`: resets to the inactive state and cancels all
pending notifications. -/
def stopTimer (st : TMState) : TMState :=
  cancelPendingNotes { st with timerState := initialTimerState }

/-- `TimerManager.getCurrentElapsedTime`: 0 when inactive; the frozen
`elapsedTime` when paused; otherwise whole seconds since the (adjusted)
start time. -/
def getCurrentElapsedTime (ts : TimerState) (now : Int) : Int :=
  if !ts.isActive then 0
  else if ts.isPaused then ts.elapsedTime
  else
    match ts.startTime with
    | some s => Int.fdiv (now - s) 1000
    | none => 0

/-- `TimerManager.handleTimerComplete`: if the id matches, completes the
session remotely, then stops the timer.  The whole body is inside a
try/catch, so when the remote completion write fails (`remoteOk = false`)
the error is swallowed and `stopTimer` never runs. -/
def handleTimerComplete (st : TMState) (sid : String) (remoteOk : Bool) :
    TMState :=
  if st.timerState.sessionId = some sid then
    if remoteOk then stopTimer st else st
  else st

/-- `TimerManager.handleBackgroundUpdate`: the periodic background check.
When the loaded state is active and unpaused and the remaining time
`plannedDuration * 1000 - (now - startTime)` has reached 0, it runs the
completion handler; otherwise nothing changes. -/
def handleBackgroundUpdate (st : TMState) (now : Int) (remoteOk : Bool) :
    TMState :=
  if st.timerState.isActive && !st.timerState.isPaused then
    match st.timerState.startTime, st.timerState.sessionId with
    | some s, some sid =>
        if st.timerState.plannedDuration * 1000 - (now - s) ≤ 0 then
          handleTimerComplete st sid remoteOk
        else st
    | _, _ => st
  else st

/-- A pause or resume request arriving at a wall-clock instant, applied
identically to both timekeeping implementations. -/
inductive TEvent where
  | pause (t : Int)
  | resume (t : Int)
deriving DecidableEq, Repr

def TEvent.time : TEvent → Int
  | .pause t => t
  | .resume t => t

/-- The `activeSession` value `startSession` installs. -/
def smStart (t0 : Int) (sid uid : String) (ty : SType) (dur : Int) :
    ActiveSession :=
  { sessionId := sid, userId := uid, ty := ty, startTime := t0,
    plannedDuration := dur, pausedTime := none, totalPausedDuration := 0 }

/-- One trace step of `SessionManager`'s pause/resume logic, acting on the
snapshot directly (the guards mirror `pauseSession` / `resumeSession`). -/
def applyEventSM (a : ActiveSession) : TEvent → ActiveSession
  | .pause t =>
      match a.pausedTime with
      | none => { a with pausedTime := some t }
      | some _ => a
  | .resume t =>
      match a.pausedTime with
      | some p =>
          { a with totalPausedDuration := a.totalPausedDuration + (t - p),
                   pausedTime := none }
      | none => a

/-- Running `SessionManager` over a trace of pause/resume events. -/
def smRun (t0 : Int) (sid uid : String) (ty : SType) (dur : Int)
    (evs : List TEvent) : ActiveSession :=
  evs.foldl applyEventSM (smStart t0 sid uid ty dur)

/-- One trace step of `TimerManager`. -/
def applyEventTM (st : TMState) : TEvent → TMState
  | .pause t => pauseTimer st t
  | .resume t => resumeTimer st t

/-- Running `TimerManager` over the same trace. -/
def tmRun (t0 : Int) (sid : String) (dur : Int) (evs : List TEvent) :
    TMState :=
  evs.foldl applyEventTM (startTimer {} t0 sid dur)

/-- Event timestamps are non-decreasing starting from `t`. -/
def timesFrom (t : Int) : List TEvent → Prop
  | [] => True
  | e :: rest => t ≤ e.time ∧ timesFrom e.time rest

instance : ∀ (t : Int) (evs : List TEvent), Decidable (timesFrom t evs)
  | _, [] => isTrue trivial
  | t, e :: rest =>
      match Int.decLe t e.time, instDecidableTimesFrom e.time rest with
      | isTrue h1, isTrue h2 => isTrue ⟨h1, h2⟩
      | isFalse h1, _ => isFalse fun h => h1 h.1
      | _, isFalse h2 => isFalse fun h => h2 h.2

/-- The timestamp of the last event, or `t` for the empty trace. -/
def traceEnd (t : Int) : List TEvent → Int
  | [] => t
  | e :: rest => traceEnd e.time rest

/-- Timing sanity of a snapshot observed at instant `t`: the start plus all
paused time never runs ahead of the clock (and of the pause instant while
paused).  Every state `SessionManager` can reach satisfies it. -/
def sessionInv (a : ActiveSession) (t : Int) : Prop :=
  match a.pausedTime with
  | none => a.startTime + a.totalPausedDuration ≤ t
  | some p => a.startTime + a.totalPausedDuration ≤ p ∧ p ≤ t

/-- Simulation relation between the `SessionManager` snapshot and the
`TimerManager` state at instant `t`: the TimerManager start time is the
SessionManager start time shifted by all accumulated paused duration, and
while paused the frozen `elapsedTime` agrees with the pause-instant
computation. -/
def relatedAt (a : ActiveSession) (ts : TimerState) (t : Int) : Prop :=
  ts.isActive = true ∧
  ts.startTime = some (a.startTime + a.totalPausedDuration) ∧
  (match a.pausedTime with
   | none =>
       ts.isPaused = false ∧ a.startTime + a.totalPausedDuration ≤ t
   | some p =>
       ts.isPaused = true ∧ ts.pausedTime = some p ∧
       a.startTime + a.totalPausedDuration ≤ p ∧ p ≤ t ∧
       ts.elapsedTime = Int.fdiv (p - (a.startTime + a.totalPausedDuration)) 1000)

/-- The duplicate check of `processOfflineQueue`: does a remote record
carry the queued entry's `sessionId`? -/
def hasSameSessionId (s : SessionData) : SessionData → Bool :=
  fun r => decide (r.sessionId = s.sessionId)

/-- `actualDuration || 0`. -/
def getD0 (x : Option Int) : Int := x.getD 0

/-- The `updateDoc` merge applied to the existing remote record when the
queued entry wins the data-quality comparison. -/
def mergeRecord (s r : SessionData) : SessionData :=
  { r with actualDuration := s.actualDuration, completed := s.completed,
           endTime := s.endTime }

/-- Replace the first record satisfying `p` (the `docs[0].ref` update). -/
def updateFirst (p : SessionData → Bool) (f : SessionData → SessionData) :
    List SessionData → List SessionData
  | [] => []
  | r :: rest => if p r then f r :: rest else r :: updateFirst p f rest

/-- The per-entry body of `processOfflineQueue`: if no remote record has
the entry's `sessionId`, add the entry as a new record; if one exists and
both carry an `endTime` and the entry's `actualDuration` is strictly
greater, merge-update that record; otherwise leave the remote unchanged.
In every present-record case the entry counts as processed. -/
def processEntry (remote : List SessionData) (s : SessionData) :
    List SessionData :=
  match remote.find? (hasSameSessionId s) with
  | none => remote ++ [s]
  | some existing =>
      if s.endTime.isSome && existing.endTime.isSome &&
         decide (getD0 existing.actualDuration < getD0 s.actualDuration) then
        updateFirst (hasSameSessionId s) (mergeRecord s) remote
      else remote

/-- The FIFO loop of `processOfflineQueue` over entries paired with
whether their remote calls succeed; failures leave the remote store
untouched and keep the entry, successes apply `processEntry` and drop it.
Returns the final remote store and the new offline queue. -/
def processQueueAux (remote : List SessionData) :
    List (SessionData × Bool) → List SessionData × List SessionData
  | [] => (remote, [])
  | (s, ok) :: rest =>
      if ok then processQueueAux (processEntry remote s) rest
      else
        let r := processQueueAux remote rest
        (r.1, s :: r.2)

/-- `SessionManager.processOfflineQueue` on a queue read from storage,
with `ok` giving each entry's remote-call outcome positionally. -/
def processOfflineQueue (remote : List SessionData)
    (queue : List SessionData) (ok : List Bool) :
    List SessionData × List SessionData :=
  processQueueAux remote (queue.zip ok)

/-- A concrete running work session used as test data. -/
def cexSession : ActiveSession :=
  { sessionId := "s1", userId := "u1", ty := SType.work, startTime := 0,
    plannedDuration := 1500, pausedTime := none, totalPausedDuration := 0 }

/-- A concrete manager state holding `cexSession`. -/
def cexState : SMState :=
  { activeSession := some cexSession, offlineQueue := [] }

/-- A concrete user document: streak 2, last active the day before `5`. -/
def cexUser : UserDoc :=
  { totalSessions := 10, totalFocusMinutes := 100, currentStreak := 2,
    longestStreak := 2, lastSessionDate := some 4 }

/-- C1 counterexample: from a state with an active session, a failing
remote finalize in `completeSession` propagates an error to the caller,
appends nothing to the offline queue, and leaves the active-session
snapshot in place — contradicting all three parts of the claim at once. -/
theorem completeSession_remote_failure_cex :
    (completeSession cexState cexUser false true 600 true 5).2.2 =
      Except.error "remote finalize failed" ∧
    (completeSession cexState cexUser false true 600 true 5).1.offlineQueue =
      cexState.offlineQueue ∧
    (completeSession cexState cexUser false true 600 true 5).1.activeSession =
      some cexSession :=
  ⟨rfl, rfl, rfl⟩

/-- C1 (amended): when the remote session-ledger write fails, the error is
rethrown to the caller in all three operations; `startSession` does append
the built record to the offline queue but installs no local snapshot,
while `completeSession` and `cancelSession` append nothing and leave the
snapshot (and user document) untouched. -/
theorem remote_failure_behaviour (st : SMState) (u : UserDoc)
    (uid : String) (ty : SType) (dur now today actual : Int)
    (nid : String) (wasC sOk : Bool) :
    (startSession st false uid ty dur now today nid).1.offlineQueue =
      st.offlineQueue ++ [startSessionData uid ty dur now today] ∧
    (startSession st false uid ty dur now today nid).1.activeSession =
      st.activeSession ∧
    (startSession st false uid ty dur now today nid).2 =
      Except.error "remote create failed" ∧
    completeSession st u false sOk actual wasC today =
      (st, u, Except.error "remote finalize failed") ∧
    cancelSession st false = (st, Except.error "remote cancel failed") :=
  ⟨rfl, rfl, rfl, rfl, rfl⟩

/-- C2 counterexample: with `cexSession` active, `startSession` does not
fail with any error — it succeeds and replaces the existing snapshot. -/
theorem startSession_overwrite_cex :
    (startSession cexState true "u1" SType.work 1500 100 0 "s2").2 =
      Except.ok "s2" ∧
    (startSession cexState true "u1" SType.work 1500 100 0 "s2").1.activeSession ≠
      some cexSession := by
  refine ⟨rfl, ?_⟩
  decide

/-- C2 (amended): `startSession` performs no already-active check: whenever
the remote create succeeds it returns the fresh id and unconditionally
installs the new session as the snapshot, overwriting any existing one;
the offline queue is untouched.  There is no `InvalidState` failure. -/
theorem startSession_no_active_check (st : SMState) (uid : String)
    (ty : SType) (dur now today : Int) (nid : String) :
    (startSession st true uid ty dur now today nid).2 = Except.ok nid ∧
    (startSession st true uid ty dur now today nid).1.activeSession =
      some (smStart now nid uid ty dur) ∧
    (startSession st true uid ty dur now today nid).1.offlineQueue =
      st.offlineQueue :=
  ⟨rfl, rfl, rfl⟩

/-- A persisted snapshot whose implied elapsed time (20000 ms at clock
20000) exceeds its 10-second plan. -/
def overrunSession : ActiveSession :=
  { sessionId := "s1", userId := "u1", ty := SType.work, startTime := 0,
    plannedDuration := 10, pausedTime := none, totalPausedDuration := 0 }

/-- C4 counterexample: recovering a snapshot whose implied elapsed time
(20 s) exceeds its planned 10 s does not discard it: the snapshot is
restored, the call returns it (not a falsy value), and a subsequent
elapsed-time read returns the full 20000 ms rather than 0. -/
theorem recover_no_discard_cex :
    (recoverActiveSession (some overrunSession) {}).1.activeSession =
      some overrunSession ∧
    (recoverActiveSession (some overrunSession) {}).2 =
      some overrunSession ∧
    getElapsedTime (some overrunSession) 20000 = 20000 ∧
    overrunSession.plannedDuration * 1000 < 20000 := by
  refine ⟨rfl, rfl, by decide, by decide⟩

/-- C4 (amended): `recoverActiveSession` restores whatever snapshot is
persisted, unconditionally: it never compares implied elapsed time with
`plannedDuration` and never discards an over-plan snapshot, and elapsed
time after recovery is exactly what the snapshot implies; only an absent
snapshot yields `none`, with the in-memory state left unchanged. -/
theorem recover_restores_unconditionally (a : ActiveSession) (st : SMState)
    (now : Int) :
    recoverActiveSession (some a) st =
      ({ st with activeSession := some a }, some a) ∧
    recoverActiveSession none st = (st, none) ∧
    getElapsedTime
        ((recoverActiveSession (some a) st).1.activeSession) now =
      getElapsedTime (some a) now :=
  ⟨rfl, rfl, rfl⟩

/-- C5: on a completed work session, the streak transaction computes:
yesterday ⇒ increment, today ⇒ unchanged, anything else ⇒ reset to 1; the
stored longest streak is the max of the previous longest and the new
current streak (with `currentStreak ≤ longestStreak`, the invariant the
update itself maintains, as shown by the last conjunct); the stored last
active date becomes today. -/
theorem updateUserStreak_spec (u : UserDoc) (today : Int)
    (h : u.currentStreak ≤ u.longestStreak) :
    (updateUserStreak u today).currentStreak =
      (if u.lastSessionDate = some today then u.currentStreak
       else if u.lastSessionDate = some (today - 1) then u.currentStreak + 1
       else 1) ∧
    (updateUserStreak u today).longestStreak =
      max u.longestStreak (updateUserStreak u today).currentStreak ∧
    (updateUserStreak u today).lastSessionDate = some today ∧
    (updateUserStreak u today).currentStreak ≤
      (updateUserStreak u today).longestStreak := by
  by_cases h1 : u.lastSessionDate = some today
  · have hu : updateUserStreak u today = u := by
      simp only [updateUserStreak, if_pos h1]
    rw [hu, if_pos h1]
    exact ⟨rfl, (max_eq_left h).symm, h1, h⟩
  · by_cases h2 : u.lastSessionDate = some (today - 1)
    · have hu : updateUserStreak u today =
          { u with currentStreak := u.currentStreak + 1,
                   longestStreak :=
                     if u.currentStreak + 1 > u.longestStreak then
                       u.currentStreak + 1
                     else u.longestStreak,
                   lastSessionDate := some today } := by
        simp only [updateUserStreak, if_neg h1, if_pos h2]
      rw [hu, if_neg h1, if_pos h2]
      refine ⟨rfl, ?_, rfl, ?_⟩
      · show (if u.currentStreak + 1 > u.longestStreak then
              u.currentStreak + 1 else u.longestStreak) =
            max u.longestStreak (u.currentStreak + 1)
        split <;> omega
      · show u.currentStreak + 1 ≤
            (if u.currentStreak + 1 > u.longestStreak then
              u.currentStreak + 1 else u.longestStreak)
        split <;> omega
    · have hu : updateUserStreak u today =
          { u with currentStreak := 1,
                   longestStreak :=
                     if 1 > u.longestStreak then 1 else u.longestStreak,
                   lastSessionDate := some today } := by
        simp only [updateUserStreak, if_neg h1, if_neg h2]
      rw [hu, if_neg h1, if_neg h2]
      refine ⟨rfl, ?_, rfl, ?_⟩
      · show (if 1 > u.longestStreak then 1 else u.longestStreak) =
            max u.longestStreak 1
        split <;> omega
      · show (1 : Int) ≤ (if 1 > u.longestStreak then 1 else u.longestStreak)
        split <;> omega

/-- A concrete user document for exercising `updateUserStreak_spec`. -/
def wUser : UserDoc :=
  { totalSessions := 0, totalFocusMinutes := 0, currentStreak := 3,
    longestStreak := 5, lastSessionDate := some 9 }

/-- Witness for C5: `wUser` (streak 3, longest 5, last active day 9)
completing on day 10 hits the yesterday branch: streak 4, longest 5. -/
theorem updateUserStreak_spec_witness :
    wUser.currentStreak ≤ wUser.longestStreak ∧
    ((updateUserStreak wUser 10).currentStreak =
      (if wUser.lastSessionDate = some 10 then wUser.currentStreak
       else if wUser.lastSessionDate = some (10 - 1) then
         wUser.currentStreak + 1
       else 1) ∧
    (updateUserStreak wUser 10).longestStreak =
      max wUser.longestStreak (updateUserStreak wUser 10).currentStreak ∧
    (updateUserStreak wUser 10).lastSessionDate = some 10 ∧
    (updateUserStreak wUser 10).currentStreak ≤
      (updateUserStreak wUser 10).longestStreak) :=
  ⟨by decide, updateUserStreak_spec wUser 10 (by decide)⟩

/-- C6 counterexample: completing the active work session with the
counters transaction committing and the separate streak transaction
failing leaves the user document with the session counted
(`totalSessions` 10 → 11) but the streak not updated (still 2, last
active day still 4), even though the streak transaction would have
advanced it to 3 — a partial application the claim rules out. -/
theorem completeSession_split_cex :
    (completeSession cexState cexUser true false 600 true 5).2.1.totalSessions =
      cexUser.totalSessions + 1 ∧
    (completeSession cexState cexUser true false 600 true 5).2.1.currentStreak =
      cexUser.currentStreak ∧
    (completeSession cexState cexUser true false 600 true 5).2.1.lastSessionDate =
      cexUser.lastSessionDate ∧
    (updateUserStreak cexUser 5).currentStreak = cexUser.currentStreak + 1 := by
  refine ⟨by decide, by decide, by decide, by decide⟩

/-- C6 (amended): `completeSession` applies the session finalize and the
counter increments atomically in one transaction — on remote failure
neither counters nor streak change and the snapshot survives — but the
streak update runs afterwards in a second, separate transaction whose
failure is swallowed, so a completion can leave the counters incremented
with the streak untouched; only when both transactions commit do counters
and streak both reflect the session. -/
theorem completeSession_two_transactions (st : SMState) (u : UserDoc)
    (a : ActiveSession) (actual today : Int) (sOk : Bool)
    (h1 : st.activeSession = some a) (h2 : a.ty = SType.work) :
    completeSession st u false sOk actual true today =
      (st, u, Except.error "remote finalize failed") ∧
    (completeSession st u true false actual true today).2.1 =
      { u with totalSessions := u.totalSessions + 1,
               totalFocusMinutes :=
                 u.totalFocusMinutes + Int.fdiv actual 60 } ∧
    (completeSession st u true false actual true today).1.activeSession =
      none ∧
    (completeSession st u true true actual true today).2.1 =
      updateUserStreak
        { u with totalSessions := u.totalSessions + 1,
                 totalFocusMinutes :=
                   u.totalFocusMinutes + Int.fdiv actual 60 }
        today := by
  refine ⟨rfl, ?_, ?_, ?_⟩ <;> simp [completeSession, h1, h2]

/-- Witness for C6 (amended): instantiated at the concrete active work
session `cexSession` and user `cexUser` on day 5. -/
theorem completeSession_two_transactions_witness :
    cexState.activeSession = some cexSession ∧
    cexSession.ty = SType.work ∧
    (completeSession cexState cexUser false true 600 true 5 =
      (cexState, cexUser, Except.error "remote finalize failed") ∧
    (completeSession cexState cexUser true false 600 true 5).2.1 =
      { cexUser with totalSessions := cexUser.totalSessions + 1,
                     totalFocusMinutes :=
                       cexUser.totalFocusMinutes + Int.fdiv 600 60 } ∧
    (completeSession cexState cexUser true false 600 true 5).1.activeSession =
      none ∧
    (completeSession cexState cexUser true true 600 true 5).2.1 =
      updateUserStreak
        { cexUser with totalSessions := cexUser.totalSessions + 1,
                       totalFocusMinutes :=
                         cexUser.totalFocusMinutes + Int.fdiv 600 60 }
        5) :=
  ⟨rfl, rfl,
    completeSession_two_transactions cexState cexUser cexSession 600 5 true
      rfl rfl⟩

/-- C8: starting a timer schedules one completion notification at
`start + plannedDuration`; pausing cancels every pending notification,
leaving zero; resuming schedules exactly one fresh completion
notification whose fire time is the original completion wall-clock
extended by the pause span `t2 - t1`. -/
theorem pause_resume_note_schedule (st0 : TMState) (t0 t1 t2 : Int)
    (sid : String) (dur : Int) :
    (startTimer st0 t0 sid dur).pending =
      st0.pending ++ [{ nid := st0.nextNid, fireTime := t0 + dur * 1000 }] ∧
    (pauseTimer (startTimer st0 t0 sid dur) t1).pending = [] ∧
    (resumeTimer (pauseTimer (startTimer st0 t0 sid dur) t1) t2).pending =
      [{ nid := st0.nextNid + 1,
         fireTime := (t0 + dur * 1000) + (t2 - t1) }] := by
  refine ⟨?_, ?_, ?_⟩
  · simp [startTimer, scheduleCompletionNote]
  · simp [startTimer, scheduleCompletionNote, pauseTimer,
          cancelPendingNotes]
  · simp [startTimer, scheduleCompletionNote, pauseTimer,
          cancelPendingNotes, resumeTimer]
    omega

/-- C9 counterexample: the state reached by starting a 10-second timer at
instant 0 is still active and unpaused at wall-clock 20000 ms, where the
elapsed time reads 20 seconds — strictly more than the 10-second plan, with
no transition having occurred. -/
theorem running_past_plan_cex :
    (startTimer {} 0 "s1" 10).timerState.isActive = true ∧
    (startTimer {} 0 "s1" 10).timerState.isPaused = false ∧
    getCurrentElapsedTime (startTimer {} 0 "s1" 10).timerState 20000 = 20 ∧
    (startTimer {} 0 "s1" 10).timerState.plannedDuration < 20 := by
  refine ⟨rfl, rfl, by decide, by decide⟩

/-- C9 (amended): elapsed time is not capped by the plan while Running —
completion is detected only when a polling check runs.  When the
background update runs against a Running state whose elapsed wall-clock
span has reached `plannedDuration`, and the remote completion write
succeeds, it stops the timer: the state becomes inactive with no pending
notifications and a zero elapsed read.  (When the remote write fails the
handler swallows the error and the state stays Running until a later
check retries.) -/
theorem backgroundUpdate_completes_overdue (st : TMState) (now s : Int)
    (sid : String)
    (h1 : st.timerState.isActive = true)
    (h2 : st.timerState.isPaused = false)
    (h3 : st.timerState.startTime = some s)
    (h4 : st.timerState.sessionId = some sid)
    (h5 : st.timerState.plannedDuration * 1000 ≤ now - s) :
    handleBackgroundUpdate st now true = stopTimer st ∧
    (handleBackgroundUpdate st now true).timerState.isActive = false ∧
    (handleBackgroundUpdate st now true).pending = [] ∧
    getCurrentElapsedTime
      (handleBackgroundUpdate st now true).timerState now = 0 := by
  have hbu : handleBackgroundUpdate st now true = stopTimer st := by
    simp only [handleBackgroundUpdate, h1, h2, h3, h4]
    simp only [Bool.and_self, Bool.not_false, if_true]
    rw [if_pos (by omega)]
    simp [handleTimerComplete, h4]
  refine ⟨hbu, ?_, ?_, ?_⟩ <;> rw [hbu] <;> rfl

/-- Witness for C9 (amended): the overdue 10-second timer started at 0,
checked by the background task at 20000 ms. -/
theorem backgroundUpdate_completes_overdue_witness :
    (startTimer {} 0 "s1" 10).timerState.isActive = true ∧
    (startTimer {} 0 "s1" 10).timerState.isPaused = false ∧
    (startTimer {} 0 "s1" 10).timerState.startTime = some 0 ∧
    (startTimer {} 0 "s1" 10).timerState.sessionId = some "s1" ∧
    (startTimer {} 0 "s1" 10).timerState.plannedDuration * 1000 ≤
      20000 - 0 ∧
    (handleBackgroundUpdate (startTimer {} 0 "s1" 10) 20000 true =
      stopTimer (startTimer {} 0 "s1" 10) ∧
    (handleBackgroundUpdate (startTimer {} 0 "s1" 10) 20000
        true).timerState.isActive = false ∧
    (handleBackgroundUpdate (startTimer {} 0 "s1" 10) 20000
        true).pending = [] ∧
    getCurrentElapsedTime
      (handleBackgroundUpdate (startTimer {} 0 "s1" 10) 20000
        true).timerState 20000 = 0) :=
  ⟨rfl, rfl, rfl, rfl, by decide,
    backgroundUpdate_completes_overdue (startTimer {} 0 "s1" 10) 20000 0
      "s1" rfl rfl rfl rfl (by decide)⟩

theorem sessionInv_mono {a : ActiveSession} {t t' : Int}
    (h : sessionInv a t) (hle : t ≤ t') : sessionInv a t' := by
  cases hp : a.pausedTime <;> simp only [sessionInv, hp] at h ⊢ <;>
    [omega; exact ⟨h.1, le_trans h.2 hle⟩]

theorem sessionInv_step {a : ActiveSession} {t : Int} (e : TEvent)
    (h : sessionInv a t) (hle : t ≤ e.time) :
    sessionInv (applyEventSM a e) e.time := by
  cases e with
  | pause te =>
      cases hp : a.pausedTime with
      | none =>
          simp only [sessionInv, hp] at h
          simp only [applyEventSM, hp, sessionInv, TEvent.time] at hle ⊢
          omega
      | some p =>
          simp only [sessionInv, hp] at h
          simp only [applyEventSM, hp, sessionInv, TEvent.time] at hle ⊢
          omega
  | resume te =>
      cases hp : a.pausedTime with
      | none =>
          simp only [sessionInv, hp] at h
          simp only [applyEventSM, hp, sessionInv, TEvent.time] at hle ⊢
          omega
      | some p =>
          simp only [sessionInv, hp] at h
          simp only [applyEventSM, hp, sessionInv, TEvent.time] at hle ⊢
          omega

theorem sessionInv_run {t : Int} {evs : List TEvent} {a : ActiveSession}
    (hw : timesFrom t evs) (h : sessionInv a t) :
    sessionInv (evs.foldl applyEventSM a) (traceEnd t evs) := by
  induction evs generalizing a t with
  | nil => exact h
  | cons e rest ih => exact ih hw.2 (sessionInv_step e h hw.1)

theorem timesFrom_le_traceEnd {t : Int} {evs : List TEvent}
    (hw : timesFrom t evs) : t ≤ traceEnd t evs := by
  induction evs generalizing t with
  | nil => exact le_refl t
  | cons e rest ih => exact le_trans hw.1 (ih hw.2)

theorem getElapsedTime_eq {a : ActiveSession} {now : Int}
    (h : sessionInv a now) :
    getElapsedTime (some a) now =
      (now - a.startTime) - (a.totalPausedDuration + pauseSpan a now) := by
  cases hp : a.pausedTime with
  | none =>
      simp only [sessionInv, hp] at h
      simp only [getElapsedTime, pauseSpan, hp]
      rw [max_eq_right (by omega)]
  | some p =>
      simp only [sessionInv, hp] at h
      simp only [getElapsedTime, pauseSpan, hp]
      rw [max_eq_right (by omega)]

theorem getElapsedTime_diff {a : ActiveSession} {now now2 : Int}
    (h : sessionInv a now) (h2 : now ≤ now2) :
    getElapsedTime (some a) now2 - getElapsedTime (some a) now =
      (if a.pausedTime = none then now2 - now else 0) := by
  rw [getElapsedTime_eq (sessionInv_mono h h2), getElapsedTime_eq h]
  cases hp : a.pausedTime <;> simp only [pauseSpan, hp, if_true, if_false,
    reduceCtorEq, if_neg, ite_true, ite_false] <;> omega

/-- C3: over any well-timed trace of start/pause/resume events, the
elapsed-time read at any later instant equals the wall-clock span since
start minus the accumulated paused duration plus the span of the current
pause if paused; between two later instants it grows by exactly the
clock advance while Running and by zero while Paused (non-decreasing
either way); and it is 0 when no session is active. -/
theorem elapsed_trace_spec (t0 : Int) (sid uid : String) (ty : SType)
    (dur : Int) (evs : List TEvent) (now now2 : Int)
    (hw : timesFrom t0 evs) (hnow : traceEnd t0 evs ≤ now)
    (hnow2 : now ≤ now2) :
    getElapsedTime (some (smRun t0 sid uid ty dur evs)) now =
      (now - (smRun t0 sid uid ty dur evs).startTime) -
        ((smRun t0 sid uid ty dur evs).totalPausedDuration +
          pauseSpan (smRun t0 sid uid ty dur evs) now) ∧
    getElapsedTime (some (smRun t0 sid uid ty dur evs)) now2 -
        getElapsedTime (some (smRun t0 sid uid ty dur evs)) now =
      (if (smRun t0 sid uid ty dur evs).pausedTime = none then now2 - now
       else 0) ∧
    getElapsedTime none now = 0 := by
  have hinv0 : sessionInv (smStart t0 sid uid ty dur) t0 := by
    simp [sessionInv, smStart]
  have hinv : sessionInv (smRun t0 sid uid ty dur evs) now :=
    sessionInv_mono (sessionInv_run hw hinv0) hnow
  exact ⟨getElapsedTime_eq hinv, getElapsedTime_diff hinv hnow2, rfl⟩

/-- A concrete trace: pause at 5000 ms, resume at 8000 ms. -/
def wTrace : List TEvent := [TEvent.pause 5000, TEvent.resume 8000]

/-- Witness for C3: over `wTrace` started at 0, observed at 10000 and
12000 ms. -/
theorem elapsed_trace_spec_witness :
    timesFrom 0 wTrace ∧ traceEnd 0 wTrace ≤ 10000 ∧
    (10000 : Int) ≤ 12000 ∧
    (getElapsedTime (some (smRun 0 "s1" "u1" SType.work 1500 wTrace))
        10000 =
      (10000 - (smRun 0 "s1" "u1" SType.work 1500 wTrace).startTime) -
        ((smRun 0 "s1" "u1" SType.work 1500 wTrace).totalPausedDuration +
          pauseSpan (smRun 0 "s1" "u1" SType.work 1500 wTrace) 10000) ∧
    getElapsedTime (some (smRun 0 "s1" "u1" SType.work 1500 wTrace))
        12000 -
        getElapsedTime (some (smRun 0 "s1" "u1" SType.work 1500 wTrace))
          10000 =
      (if (smRun 0 "s1" "u1" SType.work 1500 wTrace).pausedTime = none
       then 12000 - 10000 else 0) ∧
    getElapsedTime none (10000 : Int) = 0) :=
  ⟨by decide, by decide, by decide,
    elapsed_trace_spec 0 "s1" "u1" SType.work 1500 wTrace 10000 12000
      (by decide) (by decide) (by decide)⟩

theorem scheduleCompletionNote_timerState (st : TMState) :
    (scheduleCompletionNote st).timerState = st.timerState := by
  unfold scheduleCompletionNote
  split
  · cases st.timerState.startTime <;> rfl
  · rfl

theorem startTimer_timerState (st : TMState) (now : Int) (sid : String)
    (dur : Int) :
    (startTimer st now sid dur).timerState =
      { isActive := true, isPaused := false, startTime := some now,
        pausedTime := none, elapsedTime := 0, sessionId := some sid,
        plannedDuration := dur } := by
  unfold startTimer
  rw [scheduleCompletionNote_timerState]

theorem relatedAt_start (t0 : Int) (sid uid : String) (ty : SType)
    (dur : Int) (st0 : TMState) :
    relatedAt (smStart t0 sid uid ty dur)
      (startTimer st0 t0 sid dur).timerState t0 := by
  rw [startTimer_timerState]
  refine ⟨rfl, by simp [smStart], by simp [smStart]⟩

theorem relatedAt_mono {a : ActiveSession} {ts : TimerState} {t t' : Int}
    (h : relatedAt a ts t) (hle : t ≤ t') : relatedAt a ts t' := by
  obtain ⟨hact, hstart, hrest⟩ := h
  refine ⟨hact, hstart, ?_⟩
  cases hp : a.pausedTime with
  | none =>
      rw [hp] at hrest
      exact ⟨hrest.1, le_trans hrest.2 hle⟩
  | some p =>
      rw [hp] at hrest
      obtain ⟨h1, h2, h3, h4, h5⟩ := hrest
      exact ⟨h1, h2, h3, le_trans h4 hle, h5⟩

theorem relatedAt_step {a : ActiveSession} {st : TMState} {t : Int}
    (e : TEvent) (h : relatedAt a st.timerState t) (hle : t ≤ e.time) :
    relatedAt (applyEventSM a e) (applyEventTM st e).timerState e.time := by
  obtain ⟨hact, hstart, hrest⟩ := h
  cases e with
  | pause te =>
      simp only [TEvent.time] at hle ⊢
      cases hp : a.pausedTime with
      | none =>
          rw [hp] at hrest
          obtain ⟨hpau, hinv⟩ := hrest
          have hsm : applyEventSM a (TEvent.pause te) =
              { a with pausedTime := some te } := by
            simp [applyEventSM, hp]
          have htm : (applyEventTM st (TEvent.pause te)).timerState =
              { st.timerState with
                isPaused := true
                pausedTime := some te
                elapsedTime :=
                  Int.fdiv (te - (a.startTime + a.totalPausedDuration))
                    1000 } := by
            simp [applyEventTM, pauseTimer, hact, hpau, hstart,
              cancelPendingNotes]
          rw [hsm, htm]
          exact ⟨hact, hstart, rfl, rfl,
            show a.startTime + a.totalPausedDuration ≤ te by omega,
            le_refl te, rfl⟩
      | some p =>
          rw [hp] at hrest
          obtain ⟨hpau, hpt, hb1, hb2, helap⟩ := hrest
          have hsm : applyEventSM a (TEvent.pause te) = a := by
            simp [applyEventSM, hp]
          have htm : (applyEventTM st (TEvent.pause te)).timerState =
              st.timerState := by
            simp [applyEventTM, pauseTimer, hpau]
          rw [hsm, htm]
          refine ⟨hact, hstart, ?_⟩
          rw [hp]
          exact ⟨hpau, hpt, hb1, by omega, helap⟩
  | resume te =>
      simp only [TEvent.time] at hle ⊢
      cases hp : a.pausedTime with
      | none =>
          rw [hp] at hrest
          obtain ⟨hpau, hinv⟩ := hrest
          have hsm : applyEventSM a (TEvent.resume te) = a := by
            simp [applyEventSM, hp]
          have htm : (applyEventTM st (TEvent.resume te)).timerState =
              st.timerState := by
            simp [applyEventTM, resumeTimer, hpau]
          rw [hsm, htm]
          refine ⟨hact, hstart, ?_⟩
          rw [hp]
          exact ⟨hpau, by omega⟩
      | some p =>
          rw [hp] at hrest
          obtain ⟨hpau, hpt, hb1, hb2, helap⟩ := hrest
          have hsm : applyEventSM a (TEvent.resume te) =
              { a with
                totalPausedDuration :=
                  a.totalPausedDuration + (te - p)
                pausedTime := none } := by
            simp [applyEventSM, hp]
          have htm : (applyEventTM st (TEvent.resume te)).timerState =
              { st.timerState with
                isPaused := false
                pausedTime := none
                startTime :=
                  some ((a.startTime + a.totalPausedDuration) +
                    (te - p)) } := by
            simp [applyEventTM, resumeTimer, hact, hpau, hstart, hpt,
              scheduleCompletionNote_timerState]
          rw [hsm, htm]
          refine ⟨hact, ?_, rfl,
            show a.startTime + (a.totalPausedDuration + (te - p)) ≤ te by
              omega⟩
          simp only [Option.some.injEq]
          omega

theorem relatedAt_run {t : Int} {evs : List TEvent} {a : ActiveSession}
    {st : TMState} (hw : timesFrom t evs)
    (h : relatedAt a st.timerState t) :
    relatedAt (evs.foldl applyEventSM a)
      (evs.foldl applyEventTM st).timerState (traceEnd t evs) := by
  induction evs generalizing a st t with
  | nil => exact h
  | cons e rest ih => exact ih hw.2 (relatedAt_step e h hw.1)

theorem related_elapsed {a : ActiveSession} {ts : TimerState} {t now : Int}
    (h : relatedAt a ts t) (hle : t ≤ now) :
    Int.fdiv (getElapsedTime (some a) now) 1000 =
      getCurrentElapsedTime ts now := by
  obtain ⟨hact, hstart, hrest⟩ := h
  cases hp : a.pausedTime with
  | none =>
      rw [hp] at hrest
      obtain ⟨hpau, hinv⟩ := hrest
      have hel : getElapsedTime (some a) now =
          now - (a.startTime + a.totalPausedDuration) := by
        rw [getElapsedTime_eq (by simp only [sessionInv, hp]; omega)]
        simp only [pauseSpan, hp]
        omega
      rw [hel]
      simp [getCurrentElapsedTime, hact, hpau, hstart]
  | some p =>
      rw [hp] at hrest
      obtain ⟨hpau, hpt, hb1, hb2, helap⟩ := hrest
      have hel : getElapsedTime (some a) now =
          p - (a.startTime + a.totalPausedDuration) := by
        rw [getElapsedTime_eq (by simp only [sessionInv, hp]; omega)]
        simp only [pauseSpan, hp]
        omega
      rw [hel]
      simp [getCurrentElapsedTime, hact, hpau, helap]

/-- C10: the two elapsed-time implementations agree.  For every well-timed
trace of start/pause/resume events applied to both `SessionManager`
(fixed start, accumulated `totalPausedDuration`) and `TimerManager`
(start shifted forward on each resume, elapsed frozen in `elapsedTime`
while paused), the millisecond elapsed value of the former floored to
seconds equals the latter's seconds value at every later instant; both
read 0 with no session. -/
theorem elapsed_impls_equivalent (t0 : Int) (sid uid : String)
    (ty : SType) (dur : Int) (evs : List TEvent) (now : Int)
    (hw : timesFrom t0 evs) (hnow : traceEnd t0 evs ≤ now) :
    Int.fdiv (getElapsedTime (some (smRun t0 sid uid ty dur evs)) now)
        1000 =
      getCurrentElapsedTime (tmRun t0 sid dur evs).timerState now ∧
    Int.fdiv (getElapsedTime none now) 1000 =
      getCurrentElapsedTime initialTimerState now := by
  constructor
  · exact related_elapsed
      (relatedAt_run hw (relatedAt_start t0 sid uid ty dur {})) hnow
  · rfl

/-- Witness for C10: the two implementations run over `wTrace` from 0 and
read at 10000 ms (SessionManager: 7000 ms → 7 s; TimerManager: 7 s). -/
theorem elapsed_impls_equivalent_witness :
    timesFrom 0 wTrace ∧ traceEnd 0 wTrace ≤ 10000 ∧
    (Int.fdiv
        (getElapsedTime (some (smRun 0 "s1" "u1" SType.work 1500 wTrace))
          10000) 1000 =
      getCurrentElapsedTime (tmRun 0 "s1" 1500 wTrace).timerState 10000 ∧
    Int.fdiv (getElapsedTime none (10000 : Int)) 1000 =
      getCurrentElapsedTime initialTimerState 10000) :=
  ⟨by decide, by decide,
    elapsed_impls_equivalent 0 "s1" "u1" SType.work 1500 wTrace 10000
      (by decide) (by decide)⟩

theorem processQueueAux_failed (remote : List SessionData)
    (l : List (SessionData × Bool)) :
    (processQueueAux remote l).2 =
      (l.filter fun p => !p.2).map Prod.fst := by
  induction l generalizing remote with
  | nil => rfl
  | cons hd tl ih =>
      obtain ⟨s, ok⟩ := hd
      cases ok with
      | true => simp [processQueueAux, ih, List.filter_cons]
      | false => simp [processQueueAux, ih, List.filter_cons]

theorem updateFirst_map_key (p : SessionData → Bool)
    (f : SessionData → SessionData)
    (hf : ∀ x, (f x).sessionId = x.sessionId) (l : List SessionData) :
    (updateFirst p f l).map SessionData.sessionId =
      l.map SessionData.sessionId := by
  induction l with
  | nil => rfl
  | cons r rest ih =>
      cases hpr : p r with
      | true => simp [updateFirst, hpr, hf r]
      | false => simp [updateFirst, hpr, ih]

theorem find?_updateFirst {p : SessionData → Bool}
    {f : SessionData → SessionData} {l : List SessionData}
    {ex : SessionData} (h : l.find? p = some ex)
    (hf : ∀ x, p x = true → p (f x) = true) :
    (updateFirst p f l).find? p = some (f ex) := by
  induction l with
  | nil => simp at h
  | cons r rest ih =>
      cases hpr : p r with
      | true =>
          rw [List.find?_cons_of_pos _ hpr] at h
          injection h with h'
          subst h'
          simp only [updateFirst, hpr, if_true]
          exact List.find?_cons_of_pos _ (hf r hpr)
      | false =>
          rw [List.find?_cons_of_neg _ (by simp [hpr])] at h
          simp only [updateFirst, hpr, Bool.false_eq_true, if_false]
          rw [List.find?_cons_of_neg _ (by simp [hpr])]
          exact ih h

theorem processEntry_none_eq {remote : List SessionData} {s : SessionData}
    (h : remote.find? (hasSameSessionId s) = none) :
    processEntry remote s = remote ++ [s] := by
  unfold processEntry
  rw [h]

theorem processEntry_found_eq {remote : List SessionData}
    {s ex : SessionData}
    (h : remote.find? (hasSameSessionId s) = some ex) :
    processEntry remote s =
      if (s.endTime.isSome && ex.endTime.isSome &&
          decide (getD0 ex.actualDuration < getD0 s.actualDuration)) = true
      then updateFirst (hasSameSessionId s) (mergeRecord s) remote
      else remote := by
  unfold processEntry
  rw [h]

theorem processEntry_map_key_of_found {remote : List SessionData}
    {s ex : SessionData}
    (h : remote.find? (hasSameSessionId s) = some ex) :
    (processEntry remote s).map SessionData.sessionId =
      remote.map SessionData.sessionId := by
  rw [processEntry_found_eq h]
  split
  · exact updateFirst_map_key (hasSameSessionId s) (mergeRecord s)
      (fun x => rfl) remote
  · rfl

theorem processEntry_nodup {remote : List SessionData} {s : SessionData}
    (h : (remote.map SessionData.sessionId).Nodup) :
    ((processEntry remote s).map SessionData.sessionId).Nodup := by
  cases hf : remote.find? (hasSameSessionId s) with
  | none =>
      rw [processEntry_none_eq hf, List.map_append]
      refine List.nodup_append.mpr ⟨h, List.nodup_singleton _, ?_⟩
      intro x hx hx'
      simp only [List.map_cons, List.map_nil, List.mem_singleton] at hx'
      subst hx'
      obtain ⟨r, hr, hrx⟩ := List.mem_map.mp hx
      have hne := List.find?_eq_none.mp hf r hr
      simp only [hasSameSessionId, decide_eq_true_eq] at hne
      exact hne hrx
  | some ex =>
      rw [processEntry_map_key_of_found hf]
      exact h

theorem processQueueAux_nodup {remote : List SessionData}
    {l : List (SessionData × Bool)}
    (h : (remote.map SessionData.sessionId).Nodup) :
    ((processQueueAux remote l).1.map SessionData.sessionId).Nodup := by
  induction l generalizing remote with
  | nil => exact h
  | cons hd tl ih =>
      obtain ⟨s, ok⟩ := hd
      cases ok with
      | true =>
          show ((processQueueAux (processEntry remote s) tl).1.map
            SessionData.sessionId).Nodup
          exact ih (processEntry_nodup h)
      | false =>
          show ((processQueueAux remote tl).1.map
            SessionData.sessionId).Nodup
          exact ih h

/-- C7: `processOfflineQueue` walks the queue in FIFO order; exactly the
entries whose remote calls fail remain queued, in order, and the ones
that succeed are removed; an entry whose `sessionId` matches no remote
record is applied as a new record; when a record exists and both carry an
`endTime`, it is merge-updated exactly when the entry's `actualDuration`
is strictly greater (leaving the record count per `sessionId` intact) and
left alone otherwise; replay never creates a duplicate: distinct remote
`sessionId`s stay distinct. -/
theorem processOfflineQueue_spec
    (remote queue : List SessionData) (ok : List Bool)
    (r1 r2 r3 : List SessionData) (s1 s2 ex2 s3 ex3 : SessionData)
    (hnodup : (remote.map SessionData.sessionId).Nodup)
    (h1 : r1.find? (hasSameSessionId s1) = none)
    (h2 : r2.find? (hasSameSessionId s2) = some ex2)
    (h2c : s2.endTime.isSome = true ∧ ex2.endTime.isSome = true ∧
           getD0 ex2.actualDuration < getD0 s2.actualDuration)
    (h3 : r3.find? (hasSameSessionId s3) = some ex3)
    (h3c : ¬(s3.endTime.isSome = true ∧ ex3.endTime.isSome = true ∧
             getD0 ex3.actualDuration < getD0 s3.actualDuration)) :
    (processOfflineQueue remote queue ok).2 =
      ((queue.zip ok).filter fun p => !p.2).map Prod.fst ∧
    ((processOfflineQueue remote queue ok).1.map
        SessionData.sessionId).Nodup ∧
    processEntry r1 s1 = r1 ++ [s1] ∧
    (processEntry r2 s2).find? (hasSameSessionId s2) =
      some (mergeRecord s2 ex2) ∧
    (processEntry r2 s2).map SessionData.sessionId =
      r2.map SessionData.sessionId ∧
    processEntry r3 s3 = r3 := by
  refine ⟨processQueueAux_failed remote (queue.zip ok),
          processQueueAux_nodup hnodup, ?_, ?_,
          processEntry_map_key_of_found h2, ?_⟩
  · exact processEntry_none_eq h1
  · have hcond : (s2.endTime.isSome && ex2.endTime.isSome &&
        decide (getD0 ex2.actualDuration < getD0 s2.actualDuration)) =
          true := by
      rw [Bool.and_eq_true, Bool.and_eq_true]
      exact ⟨⟨h2c.1, h2c.2.1⟩, decide_eq_true h2c.2.2⟩
    rw [processEntry_found_eq h2, if_pos hcond]
    exact find?_updateFirst h2 (fun x hx => hx)
  · have hcond : ¬((s3.endTime.isSome && ex3.endTime.isSome &&
        decide (getD0 ex3.actualDuration < getD0 s3.actualDuration)) =
          true) := by
      intro hc
      rw [Bool.and_eq_true, Bool.and_eq_true] at hc
      exact h3c ⟨hc.1.1, hc.1.2, of_decide_eq_true hc.2⟩
    rw [processEntry_found_eq h3, if_neg hcond]

/-- A queued entry whose id matches no remote record. -/
def wEntryNew : SessionData := { sessionId := some "a" }

/-- A queued completed entry with a longer recorded duration than its
remote counterpart. -/
def wEntryBetter : SessionData :=
  { sessionId := some "b", actualDuration := some 1500, endTime := some 9,
    completed := true }

/-- The remote record `wEntryBetter` merge-updates. -/
def wRecordB : SessionData :=
  { sessionId := some "b", actualDuration := some 900, endTime := some 9 }

/-- A queued entry that ties its remote counterpart on duration. -/
def wEntrySame : SessionData :=
  { sessionId := some "c", actualDuration := some 900, endTime := some 9 }

/-- The remote record `wEntrySame` leaves alone. -/
def wRecordC : SessionData :=
  { sessionId := some "c", actualDuration := some 900, endTime := some 9 }

/-- Witness for C7: a one-record remote store, a one-entry queue whose
call succeeds, and the three per-entry scenarios instantiated on concrete
records. -/
theorem processOfflineQueue_spec_witness :
    ([wRecordB].map SessionData.sessionId).Nodup ∧
    [wRecordB].find? (hasSameSessionId wEntryNew) = none ∧
    [wRecordB].find? (hasSameSessionId wEntryBetter) = some wRecordB ∧
    (wEntryBetter.endTime.isSome = true ∧ wRecordB.endTime.isSome = true ∧
      getD0 wRecordB.actualDuration < getD0 wEntryBetter.actualDuration) ∧
    [wRecordC].find? (hasSameSessionId wEntrySame) = some wRecordC ∧
    ¬(wEntrySame.endTime.isSome = true ∧ wRecordC.endTime.isSome = true ∧
      getD0 wRecordC.actualDuration < getD0 wEntrySame.actualDuration) ∧
    ((processOfflineQueue [wRecordB] [wEntryNew] [true]).2 =
      (([wEntryNew].zip [true]).filter fun p => !p.2).map Prod.fst ∧
    ((processOfflineQueue [wRecordB] [wEntryNew] [true]).1.map
        SessionData.sessionId).Nodup ∧
    processEntry [wRecordB] wEntryNew = [wRecordB] ++ [wEntryNew] ∧
    (processEntry [wRecordB] wEntryBetter).find?
        (hasSameSessionId wEntryBetter) =
      some (mergeRecord wEntryBetter wRecordB) ∧
    (processEntry [wRecordB] wEntryBetter).map SessionData.sessionId =
      [wRecordB].map SessionData.sessionId ∧
    processEntry [wRecordC] wEntrySame = [wRecordC]) :=
  ⟨by decide, by decide, by decide, by decide, by decide, by decide,
    processOfflineQueue_spec [wRecordB] [wEntryNew] [true]
      [wRecordB] [wRecordB] [wRecordC] wEntryNew wEntryBetter wRecordB
      wEntrySame wRecordC (by decide) (by decide) (by decide) (by decide)
      (by decide) (by decide)⟩

end Pomodoro
